import Mathlib

/-!
# Verification of the browser-in-the-loop summarization evaluation harness

A shallow embedding of the core of `app.py` (evaluation run controller,
pending-request table, dispatch/wait protocol, reply handler) together with
proofs of the specified properties.

Python strings are modelled as Lean `String`; Python string comparison
(`<`, `max`) and `str.startswith` are code-point lexicographic, which we
model on the underlying character list (`String.data`).  Wall-clock times
(`int(time.time())`) are modelled as natural-number seconds.  The ROUGE
scorer is a pure external collaborator and is passed as a function
parameter.  Fault-free execution is modelled (the `except` fallback at the
article boundary of `request_browser_summarization` is outside the
natural-completion executions considered here).
-/

/-- Python `a < b` on strings: lexicographic comparison of code points,
modelled on the character lists. -/
def pyStrLtB (a b : String) : Bool := decide (a.data < b.data)

/-- One step of Python `max` on strings (`max` keeps the earlier element on
ties, which for strings means an identical value). -/
def pyStrMax (a b : String) : String := if a.data < b.data then b else a

/-- Python `max(list_of_strings)`; `none` on the empty list (the source
guards with `if matching_requests:`). -/
def pyMaxList : List String → Option String
  | [] => none
  | x :: xs => some (xs.foldl pyStrMax x)

/-- Python `p.startswith(s)`-style test: `startswith p s` is true when `p`
is an initial segment of `s` (argument order: the candidate prefix first). -/
def startswith (p s : String) : Bool := p.data.isPrefixOf s.data

/-- Python truthiness-based `s or d` for strings: the empty string is falsy. -/
def pyOr (s d : String) : String := if s = "" then d else s

/-- Python `opt or d` where `opt` is an optional string (`None` and `""` are
both falsy). -/
def pyOrOpt (o : Option String) (d : String) : String :=
  match o with
  | none => d
  | some s => pyOr s d

/-! ## Injectivity of the decimal representation `Nat.repr`

Request identifiers embed `int(time.time())` printed in decimal; we prove
the printing function injective by exhibiting a parse-back left inverse. -/

/-- Numeric value of a decimal digit character. -/
def charToDigit (c : Char) : Nat := c.toNat - 48

/-- Parse a list of decimal digit characters back to a number. -/
def parseDigits (l : List Char) : Nat :=
  l.foldl (fun acc c => acc * 10 + charToDigit c) 0

theorem charToDigit_digitChar {d : Nat} (h : d < 10) :
    charToDigit (Nat.digitChar d) = d := by
  interval_cases d <;> rfl

theorem parseDigits_append (l₁ l₂ : List Char) :
    parseDigits (l₁ ++ l₂) =
      l₂.foldl (fun acc c => acc * 10 + charToDigit c) (parseDigits l₁) := by
  simp [parseDigits, List.foldl_append]

theorem toDigitsCore_append (b : Nat) :
    ∀ (fuel n : Nat) (ds : List Char),
      Nat.toDigitsCore b fuel n ds = Nat.toDigitsCore b fuel n [] ++ ds := by
  intro fuel
  induction fuel with
  | zero => intro n ds; simp [Nat.toDigitsCore]
  | succ f ih =>
    intro n ds
    simp only [Nat.toDigitsCore]
    by_cases h : n / b = 0
    · simp [h]
    · simp only [h, if_false, if_neg h]
      rw [ih (n / b) [Nat.digitChar (n % b)],
        ih (n / b) (Nat.digitChar (n % b) :: ds), List.append_assoc]
      rfl

theorem parseDigits_toDigitsCore :
    ∀ (fuel n : Nat), n < 10 ^ fuel →
      parseDigits (Nat.toDigitsCore 10 fuel n []) = n := by
  intro fuel
  induction fuel with
  | zero =>
    intro n hn
    interval_cases n
    simp [Nat.toDigitsCore, parseDigits]
  | succ f ih =>
    intro n hn
    simp only [Nat.toDigitsCore]
    by_cases h : n / 10 = 0
    · simp [h, parseDigits, charToDigit_digitChar (Nat.mod_lt n (by norm_num))]
      omega
    · simp only [h, if_false, if_neg h]
      rw [toDigitsCore_append, parseDigits_append]
      have hdiv : n / 10 < 10 ^ f := by
        rw [Nat.div_lt_iff_lt_mul (by norm_num)]
        calc n < 10 ^ (f + 1) := hn
        _ = 10 ^ f * 10 := by ring
      rw [ih (n / 10) hdiv]
      simp [charToDigit_digitChar (Nat.mod_lt n (by norm_num))]
      omega

theorem parseDigits_repr (n : Nat) : parseDigits (Nat.repr n).data = n := by
  have h : n < 10 ^ (n + 1) := by
    calc n < 10 ^ n := Nat.lt_pow_self (by norm_num) n
    _ ≤ 10 ^ (n + 1) := Nat.pow_le_pow_right (by norm_num) (Nat.le_succ n)
  simpa [Nat.repr, Nat.toDigits, List.asString] using
    parseDigits_toDigitsCore (n + 1) n h

theorem natRepr_injective : Function.Injective Nat.repr := by
  intro m n h
  have : parseDigits (Nat.repr m).data = parseDigits (Nat.repr n).data := by rw [h]
  rwa [parseDigits_repr, parseDigits_repr] at this

/-! ## Data model (`app.py` dict shapes as typed records) -/

/-- An article record as produced by the data-loading collaborator
(`load_dataset` / `_get_sample_articles`). -/
structure Article where
  id : Nat
  article : String
  reference_summary : String
  dataset : String
deriving Repr, DecidableEq

/-- Result of `calculate_rouge_scores`: the fixed metric mapping. -/
structure RougeScores where
  rouge1 : ℚ
  rouge2 : ℚ
  rougeL : ℚ
deriving Repr, DecidableEq

/-- A scored result record (the dict built in `handle_summarization_result`
and `create_mock_result`).  `compression_ratio_val` models the source's
`compression_ratio` field; `timestamp` abstracts `datetime.now().isoformat()`
to the wall-clock second. -/
structure ScoredResult where
  article_id : Nat
  configuration : String
  article_length : Nat
  reference_summary : String
  generated_summary : String
  rouge_scores : RougeScores
  compression_ratio_val : ℚ
  processing_time : ℚ
  timestamp : Nat
  source : String
deriving Repr, DecidableEq

/-- An entry of the pending-request dict: `{'article': ..., 'config': ...,
'result': None, 'completed': False, 'start_time': ..., 'retry_attempt': ...}`.
The `retry_attempt` key is only present on retry registrations, hence
`Option`. -/
structure PendingRequest where
  article : Article
  config : String
  result : Option ScoredResult
  completed : Bool
  start_time : Nat
  retry_attempt : Option Nat
deriving Repr, DecidableEq

/-! ## The pending-request table

A Python dict keyed by request-id strings: insertion-ordered association
list with unique keys; assignment replaces in place, otherwise appends. -/

abbrev Table := List (String × PendingRequest)

def tableKeys (t : Table) : List String := t.map Prod.fst

/-- `request_id in pending_requests` -/
def memReq (t : Table) (rid : String) : Bool := t.any (fun e => e.1 == rid)

/-- `pending_requests.get(request_id)` / `pending_requests[request_id]` -/
def lookupReq (t : Table) (rid : String) : Option PendingRequest :=
  (t.find? (fun e => e.1 == rid)).map Prod.snd

/-- `pending_requests[request_id] = data` (dict assignment). -/
def insertReq (t : Table) (rid : String) (rd : PendingRequest) : Table :=
  if memReq t rid then
    t.map (fun e => if e.1 == rid then (rid, rd) else e)
  else
    t ++ [(rid, rd)]

/-- `del pending_requests[request_id]`. -/
def eraseReq (t : Table) (rid : String) : Table :=
  t.filter (fun e => e.1 != rid)

/-! ## Static configuration (`config.py`) -/

def AVAILABLE_DATASETS : List String :=
  ["cnn_dailymail", "xsum", "reddit_tifu", "multi_news", "sample"]

def DEFAULT_DATASET : String := "cnn_dailymail"

def MAX_ALLOWED_ARTICLES : Nat := 50

def SUMMARIZER_TIMEOUT : Nat := 240

def SUMMARIZER_MAX_RETRIES : Nat := 1

def SUMMARIZER_RETRY_DELAY : Nat := 2

/-! ## Run state (the per-session `session_states` entry) -/

/-- Per-session evaluation state.  The `evaluation_mode`, `selected_config`
and `selected_dataset` keys are absent until `start_evaluation` stores them,
hence `Option`; reads go through `.get(key, default)`. -/
structure RunState where
  is_running : Bool := false
  current_article : Nat := 0
  total_articles : Nat := 0
  results : List ScoredResult := []
  logs : List String := []
  evaluation_mode : Option String := none
  selected_config : Option String := none
  selected_dataset : Option String := none
deriving Repr, DecidableEq

/-- `evaluation_state.get('evaluation_mode', 'single')` -/
def RunState.mode (st : RunState) : String := st.evaluation_mode.getD "single"

/-- `evaluation_state.get('selected_config', 'tldr_short_plain-text')` -/
def RunState.selConfig (st : RunState) : String :=
  st.selected_config.getD "tldr_short_plain-text"

/-- `log_message(msg, session_id)`: appends to the session log trail (the
wall-clock `[HH:MM:SS]` prefix is presentational and omitted). -/
def logAppend (st : RunState) (msg : String) : RunState :=
  { st with logs := st.logs ++ [msg] }

/-! ## Control surface: `start_evaluation` / `stop_evaluation` -/

inductive StartResponse where
  /-- `{'error': 'Evaluation already running'}, 400` -/
  | conflict
  /-- `{'error': 'Invalid dataset: ...'}, 400` -/
  | invalidDataset (dataset : String)
  /-- `{'message': 'Evaluation started', ...}` -/
  | started (max_articles : Nat) (evaluation_mode : String)
      (selected_config : String) (selected_dataset : String)
deriving Repr, DecidableEq

/-- `start_evaluation` (POST `/api/start_evaluation`).  Returns the
response, the updated session state, and whether a background
`run_evaluation` thread was spawned. -/
def start_evaluation (st : RunState) (max_articles : Nat)
    (evaluation_mode selected_config selected_dataset : String) :
    StartResponse × RunState × Bool :=
  if st.is_running then
    (.conflict, st, false)
  else
    let ma := min max_articles MAX_ALLOWED_ARTICLES
    if selected_dataset ∈ AVAILABLE_DATASETS then
      let st' := { st with
        evaluation_mode := some evaluation_mode,
        selected_config := some selected_config,
        selected_dataset := some selected_dataset }
      (.started ma evaluation_mode selected_config selected_dataset, st', true)
    else
      (.invalidDataset selected_dataset, st, false)

/-- `stop_evaluation` (POST `/api/stop_evaluation`): flips the flag. -/
def stop_evaluation (st : RunState) : RunState := { st with is_running := false }

/-! ## Scoring and result construction -/

/-- `article_length / summary_length if summary_length > 0 else 0`
(the guarded compression-ratio division, lines 489-491 and 591-594). -/
def compressionRatioOf (alen slen : Nat) : ℚ :=
  if slen > 0 then (alen : ℚ) / (slen : ℚ) else 0

/-- The result dict built from a browser reply
(`handle_summarization_result`, lines 596-607). -/
def browserApiResult (score : String → String → RougeScores) (a : Article)
    (cfg : String) (generated_summary : String) (processing_time : ℚ)
    (now : Nat) : ScoredResult :=
  { article_id := a.id,
    configuration := pyOr cfg "unknown",
    article_length := a.article.length,
    reference_summary := a.reference_summary,
    generated_summary := generated_summary,
    rouge_scores := score a.reference_summary generated_summary,
    compression_ratio_val :=
      compressionRatioOf a.article.length generated_summary.length,
    processing_time := processing_time,
    timestamp := now,
    source := "browser_api" }

/-- The deterministic placeholder candidate text of `create_mock_result`. -/
def mockSummary (a : Article) (cfg : String) : String :=
  let config_desc :=
    if cfg = "" then "" else " using " ++ cfg ++ " configuration"
  "This article discusses key topics related to article " ++ Nat.repr a.id
    ++ config_desc ++ ". The main points cover important aspects of the subject matter."

/-- `create_mock_result(article, config)` (lines 476-507): the synthesized
fallback result, scored normally and tagged `mock_fallback`. -/
def create_mock_result (score : String → String → RougeScores) (a : Article)
    (cfg : String) (now : Nat) : ScoredResult :=
  let mock_summary := mockSummary a cfg
  { article_id := a.id,
    configuration := pyOr cfg "unknown",
    article_length := a.article.length,
    reference_summary := a.reference_summary,
    generated_summary := mock_summary,
    rouge_scores := score a.reference_summary mock_summary,
    compression_ratio_val :=
      compressionRatioOf a.article.length mock_summary.length,
    processing_time := 1,
    timestamp := now,
    source := "mock_fallback" }

/-! ## Request identifiers

`f"req_{article['id']}{request_suffix}_{int(time.time())}"` where the
suffix is `f"_{config}"` (unconditional at the initial registration,
line 357) or `f"_{config_name}" if config_name else ""` (retry and
correlation lookup, lines 410 and 435). -/

def requestSuffixInitial (cfg : String) : String := "_" ++ cfg

def requestSuffixRetry (cfg : String) : String :=
  if cfg = "" then "" else "_" ++ cfg

/-- `request_key_prefix = f"req_{article['id']}{request_suffix}_"` -/
def requestKeyPfx (aid : Nat) (cfg : String) : String :=
  "req_" ++ Nat.repr aid ++ requestSuffixRetry cfg ++ "_"

/-- Identifier issued by the initial registration in
`request_browser_summarization` at whole second `t`. -/
def requestIdInitial (aid : Nat) (cfg : String) (t : Nat) : String :=
  "req_" ++ Nat.repr aid ++ requestSuffixInitial cfg ++ "_" ++ Nat.repr t

/-- Identifier issued by a retry registration in
`wait_for_browser_response` at whole second `t`. -/
def requestIdRetry (aid : Nat) (cfg : String) (t : Nat) : String :=
  "req_" ++ Nat.repr aid ++ requestSuffixRetry cfg ++ "_" ++ Nat.repr t

/-- The correlation lookup of `wait_for_browser_response` (lines 434-444):
collect the pending identifiers sharing this (article id, configuration)
prefix and take the string maximum as "the most recent one". -/
def findMatchingRequestId (tab : Table) (aid : Nat) (cfg : String) :
    Option String :=
  pyMaxList ((tableKeys tab).filter
    (fun rid => startswith (requestKeyPfx aid cfg) rid))

/-! ## Reply delivery (`handle_summarization_result`) -/

/-- The `summarization_result` socket handler (lines 542-615), acting on the
session run state (log trail) and the pending-request table.  The returned
`Bool` is the `summarization_acknowledged` emission, sent on every path. -/
def handle_summarization_result (score : String → String → RougeScores)
    (now : Nat) (st : RunState) (table : Table) (request_id : String)
    (article_id : Nat) (generated_summary : String)
    (error_message : Option String) : RunState × Table × Bool :=
  match lookupReq table request_id with
  | none =>
    (logAppend st ("Received duplicate or unknown request " ++ request_id
        ++ " for article " ++ Nat.repr article_id ++ ", ignoring"),
      table, true)
  | some request_data =>
    if request_data.completed then
      (logAppend st ("Request " ++ request_id ++ " for article "
          ++ Nat.repr article_id ++ " already completed, ignoring duplicate"),
        table, true)
    else
      let st := logAppend st ("Received summarization for article "
        ++ Nat.repr article_id ++ " (request: " ++ request_id ++ ")")
      let processing_time : ℚ := (now : ℚ) - (request_data.start_time : ℚ)
      match error_message with
      | some err =>
        let st := logAppend st ("Error in browser summarization: " ++ err)
        let result := create_mock_result score request_data.article
          request_data.config now
        (st, insertReq table request_id
          { request_data with result := some result, completed := true }, true)
      | none =>
        let result := browserApiResult score request_data.article
          request_data.config generated_summary processing_time now
        (st, insertReq table request_id
          { request_data with result := some result, completed := true }, true)

/-! ## Dispatch/wait protocol -/

/-- A reply the remote worker delivers during one attempt's poll window:
payload of the inbound `summarization_result` message, together with the
wall-clock second at which the handler runs. -/
structure BrowserReply where
  summary : String
  error : Option String
  deliveredAt : Nat
deriving Repr, DecidableEq

/-- Protocol-level state threaded through a run: the session run state, the
session's pending-request table, and the trail of published
`summarize_request` identifiers (each list element is one outbound
`socketio.emit('summarize_request', ...)`). -/
structure ProtoState where
  st : RunState
  table : Table
  emitted : List String
deriving Repr, DecidableEq

/-- The attempt loop of `wait_for_browser_response` (lines 404-474), one
list element per remaining attempt index.  `env attempt` is the reply (if
any) the remote worker delivers for this attempt's published identifier
within its poll window; `times attempt` is `int(time.time())` at that
attempt's registration; `tEnd` is the wall-clock second at which the final
fallback would be synthesized. -/
def waitAttempts (score : String → String → RougeScores) (a : Article)
    (cfg : String) (env : Nat → Option BrowserReply) (times : Nat → Nat)
    (tEnd : Nat) (maxRetries : Nat) :
    List Nat → ProtoState → ProtoState × Option ScoredResult
  | [], ps =>
    -- all retries exhausted: return the mock fallback (lines 473-474)
    (ps, some (create_mock_result score a cfg tEnd))
  | attempt :: rest, ps =>
    -- on a retry: register a fresh request and re-publish (lines 405-432)
    let ps :=
      if attempt = 0 then ps
      else
        let rid := requestIdRetry a.id cfg (times attempt)
        { st := logAppend ps.st ("Retry attempt " ++ Nat.repr attempt ++ "/"
            ++ Nat.repr maxRetries ++ " for article " ++ Nat.repr a.id
            ++ ", config: " ++ cfg),
          table := insertReq ps.table rid
            { article := a, config := cfg, result := none, completed := false,
              start_time := times attempt, retry_attempt := some attempt },
          emitted := ps.emitted ++ [rid] }
    -- correlation lookup: most-recent matching id by string max (434-444)
    match findMatchingRequestId ps.table a.id cfg with
    | none =>
      -- `continue` (lines 446-449)
      let ps :=
        if attempt = 0 then
          { ps with st := logAppend ps.st ("No pending request found for article "
              ++ Nat.repr a.id ++ ", config: " ++ cfg) }
        else ps
      waitAttempts score a cfg env times tEnd maxRetries rest ps
    | some request_id =>
      -- poll window (lines 452-460): the handler may deliver a reply for
      -- this attempt's published identifier while we poll
      let ps' :=
        match env attempt with
        | none => ps
        | some br =>
          let delivered :=
            if attempt = 0 then requestIdInitial a.id cfg (times 0)
            else requestIdRetry a.id cfg (times attempt)
          let out := handle_summarization_result score br.deliveredAt ps.st
            ps.table delivered a.id br.summary br.error
          { ps with st := out.1, table := out.2.1 }
      match lookupReq ps'.table request_id with
      | some rd =>
        if rd.completed then
          ({ ps' with st := logAppend ps'.st ("Successfully received response for article "
              ++ Nat.repr a.id ++ ", config: " ++ cfg ++ " (attempt "
              ++ Nat.repr (attempt + 1) ++ ")") }, rd.result)
        else
          -- timeout for this attempt: drop the stale entry (462-471)
          let ps' := { ps' with
            st := logAppend ps'.st (if attempt < maxRetries then
                "Timeout on attempt " ++ Nat.repr (attempt + 1) ++ "/"
                  ++ Nat.repr (maxRetries + 1) ++ " for article "
                  ++ Nat.repr a.id ++ ", config: " ++ cfg
              else
                "Final timeout after " ++ Nat.repr (maxRetries + 1)
                  ++ " attempts for article " ++ Nat.repr a.id
                  ++ ", config: " ++ cfg),
            table := eraseReq ps'.table request_id }
          waitAttempts score a cfg env times tEnd maxRetries rest ps'
      | none => waitAttempts score a cfg env times tEnd maxRetries rest ps'

/-- `wait_for_browser_response` (lines 394-474):
`for attempt in range(max_retries + 1)`. -/
def wait_for_browser_response (score : String → String → RougeScores)
    (a : Article) (cfg : String) (env : Nat → Option BrowserReply)
    (times : Nat → Nat) (tEnd : Nat) (maxRetries : Nat) (ps : ProtoState) :
    ProtoState × Option ScoredResult :=
  waitAttempts score a cfg env times tEnd maxRetries
    (List.range (maxRetries + 1)) ps

/-- One iteration of the per-configuration loop of
`request_browser_summarization` (lines 353-382): register the initial
request, publish it, then block in `wait_for_browser_response`. -/
def dispatchConfig (score : String → String → RougeScores) (a : Article)
    (cfg : String) (env : Nat → Option BrowserReply) (times : Nat → Nat)
    (tEnd : Nat) (maxRetries : Nat) (ps : ProtoState) :
    ProtoState × Option ScoredResult :=
  let st := logAppend ps.st ("Requesting " ++ cfg
    ++ " summarization for article " ++ Nat.repr a.id)
  let rid := requestIdInitial a.id cfg (times 0)
  let table := insertReq ps.table rid
    { article := a, config := cfg, result := none, completed := false,
      start_time := times 0, retry_attempt := none }
  wait_for_browser_response score a cfg env times tEnd maxRetries
    { st := st, table := table, emitted := ps.emitted ++ [rid] }

/-- The sweep-mode configuration cross-product (lines 347-350). -/
def sweepConfigurations : List String :=
  (["tldr", "key-points", "teaser", "headline"].map (fun t =>
    (["short", "medium", "long"].map (fun l =>
      (["plain-text", "markdown"].map (fun f =>
        t ++ "_" ++ l ++ "_" ++ f)))).flatten)).flatten

/-- The configuration loop body of `request_browser_summarization`:
`result = wait_for_browser_response(...); if result: results.append(result)`. -/
def processConfigs (score : String → String → RougeScores) (a : Article)
    (env : String → Nat → Option BrowserReply) (times : String → Nat → Nat)
    (tEnd : String → Nat) (maxRetries : Nat) :
    List String → ProtoState → List ScoredResult →
      ProtoState × List ScoredResult
  | [], ps, acc => (ps, acc)
  | cfg :: cfgs, ps, acc =>
    let out := dispatchConfig score a cfg (env cfg) (times cfg) (tEnd cfg)
      maxRetries ps
    match out.2 with
    | some r => processConfigs score a env times tEnd maxRetries cfgs out.1
        (acc ++ [r])
    | none => processConfigs score a env times tEnd maxRetries cfgs out.1 acc

/-- `request_browser_summarization` (lines 335-392) on the fault-free path:
pick the configuration list from the run mode, process each configuration,
and return one result (single mode: `results[0] if results else None`) or
the whole list (sweep mode). -/
def request_browser_summarization (score : String → String → RougeScores)
    (a : Article) (env : String → Nat → Option BrowserReply)
    (times : String → Nat → Nat) (tEnd : String → Nat) (maxRetries : Nat)
    (ps : ProtoState) : ProtoState × List ScoredResult :=
  let configurations :=
    if ps.st.mode = "single" then [ps.st.selConfig] else sweepConfigurations
  let out := processConfigs score a env times tEnd maxRetries configurations
    ps []
  (out.1, if ps.st.mode = "single" then out.2.take 1 else out.2)

/-! ## The evaluation run controller (`run_evaluation`) -/

/-- `cleanup_completed_requests` (lines 88-99): purge completed entries
after a run. -/
def cleanup_completed_requests (st : RunState) (table : Table) :
    RunState × Table :=
  let completed := (table.filter (fun e => e.2.completed)).map Prod.fst
  let table' := table.filter (fun e => !e.2.completed)
  if completed.isEmpty then (st, table')
  else
    (logAppend st ("Cleaned up " ++ Nat.repr completed.length
      ++ " completed requests"), table')

/-- The per-article loop of `run_evaluation` (lines 289-322).  `i` is the
`enumerate` index; `total` is `len(articles)`.  An external
`stop_evaluation` request is modelled by `stopAt?`: when `stopAt? = some k`
the flag flip is delivered at the iteration boundary before the `k`-th
article's `is_running` re-check (the loop re-reads fresh state at the top
of every iteration, line 291-293). -/
def runLoop (score : String → String → RougeScores)
    (env : Nat → String → Nat → Option BrowserReply)
    (times : Nat → String → Nat → Nat) (tEnd : Nat → String → Nat)
    (maxRetries : Nat) (total : Nat) (stopAt? : Option Nat) :
    Nat → List Article → ProtoState → ProtoState
  | _, [], ps => ps
  | i, a :: rest, ps =>
    let ps :=
      match stopAt? with
      | some k => if k ≤ i then { ps with st := stop_evaluation ps.st } else ps
      | none => ps
    if ps.st.is_running then
      let st := { ps.st with current_article := i + 1 }
      let st := logAppend st ("Processing article " ++ Nat.repr (i + 1)
        ++ "/" ++ Nat.repr total)
      let out := request_browser_summarization score a (env a.id) (times a.id)
        (tEnd a.id) maxRetries { ps with st := st }
      let ps' := { out.1 with
        st := { out.1.st with results := out.1.st.results ++ out.2 } }
      runLoop score env times tEnd maxRetries total stopAt? (i + 1) rest ps'
    else ps

/-- The state mutation at the head of `run_evaluation` (lines 265-283):
flip `is_running`, reset the progress counter and the result sequence,
record the article total after loading, and log the start message.  The
log trail is appended to, never cleared. -/
def runStartState (st0 : RunState) (nArticles : Nat) : RunState :=
  logAppend { st0 with
      is_running := true, current_article := 0, results := [],
      total_articles := nArticles }
    "Starting evaluation process..."

/-- `run_evaluation` (lines 265-333): start transition, per-article loop,
completion transition and pending-table purge.  `articles` is the sequence
returned by the data-loading collaborator. -/
def run_evaluation (score : String → String → RougeScores)
    (env : Nat → String → Nat → Option BrowserReply)
    (times : Nat → String → Nat → Nat) (tEnd : Nat → String → Nat)
    (maxRetries : Nat) (articles : List Article) (stopAt? : Option Nat)
    (st0 : RunState) (table0 : Table) : ProtoState :=
  let st := runStartState st0 articles.length
  let ps := runLoop score env times tEnd maxRetries articles.length stopAt?
    0 articles { st := st, table := table0, emitted := [] }
  let st := { ps.st with is_running := false }
  let out := cleanup_completed_requests st ps.table
  { st := logAppend out.1 "Evaluation completed!", table := out.2,
    emitted := ps.emitted }

/-! ## Shared example values for concrete witnesses, and run invariants -/

def zeroScore : String → String → RougeScores := fun _ _ => ⟨0, 0, 0⟩

def sampleArticle : Article :=
  { id := 1, article := "aaaa aaaa", reference_summary := "ref",
    dataset := "sample" }

def samplePending : PendingRequest :=
  { article := sampleArticle, config := "c", result := none,
    completed := false, start_time := 5, retry_attempt := none }

def c6State : RunState := { logs := ["old log entry"] }

/-- Every completed table entry carries a stored result (established by the
reply handler, which sets `result` and `completed` together). -/
def TableInv (t : Table) : Prop :=
  ∀ e ∈ t, e.2.completed = true → e.2.result.isSome

/-- Two run states that agree on everything except the log trail (the
dispatch/wait protocol and the reply handler touch the state only through
`log_message`). -/
def SameExceptLogs (s s' : RunState) : Prop :=
  s'.is_running = s.is_running ∧ s'.current_article = s.current_article ∧
  s'.total_articles = s.total_articles ∧ s'.results = s.results ∧
  s'.evaluation_mode = s.evaluation_mode ∧
  s'.selected_config = s.selected_config ∧
  s'.selected_dataset = s.selected_dataset

/-! ## Shared lemmas about the pending-request table -/

theorem lookupReq_nil (rid : String) : lookupReq [] rid = none := rfl

theorem lookupReq_cons (e : String × PendingRequest) (es : Table)
    (rid : String) :
    lookupReq (e :: es) rid =
      if (e.1 == rid) = true then some e.2 else lookupReq es rid := by
  unfold lookupReq
  cases hbe : (e.1 == rid) with
  | true => simp [List.find?_cons, hbe]
  | false => simp [List.find?_cons, hbe]

theorem memReq_cons (e : String × PendingRequest) (es : Table)
    (rid : String) :
    memReq (e :: es) rid = ((e.1 == rid) || memReq es rid) := by
  simp [memReq]

theorem lookupReq_map_overwrite (rid : String) (rd : PendingRequest) :
    ∀ t : Table,
      lookupReq (t.map (fun e => if e.1 == rid then (rid, rd) else e)) rid =
        if memReq t rid then some rd else none := by
  intro t
  induction t with
  | nil => simp [lookupReq, memReq]
  | cons e es ih =>
    cases hbe : (e.1 == rid) with
    | true =>
      simp only [List.map_cons, hbe, if_true]
      rw [lookupReq_cons]
      simp [memReq_cons, hbe]
    | false =>
      simp only [List.map_cons, hbe, Bool.false_eq_true, if_false]
      rw [lookupReq_cons]
      simp only [hbe, Bool.false_eq_true, if_false]
      rw [ih, memReq_cons, hbe]
      simp

theorem lookupReq_append_single (t : Table) (rid : String)
    (rd : PendingRequest) (h : memReq t rid = false) :
    lookupReq (t ++ [(rid, rd)]) rid = some rd := by
  induction t with
  | nil =>
    rw [List.nil_append, lookupReq_cons]
    simp
  | cons e es ih =>
    rw [memReq_cons] at h
    have h1 : (e.1 == rid) = false := by
      cases hb : (e.1 == rid) with
      | false => rfl
      | true => rw [hb] at h; simp at h
    have h2 : memReq es rid = false := by
      cases hb : memReq es rid with
      | false => rfl
      | true => rw [hb] at h; simp at h
    rw [List.cons_append, lookupReq_cons]
    simp only [h1, Bool.false_eq_true, if_false]
    exact ih h2

theorem lookupReq_insertReq_self (t : Table) (rid : String)
    (rd : PendingRequest) : lookupReq (insertReq t rid rd) rid = some rd := by
  unfold insertReq
  cases h : memReq t rid with
  | true => simpa [h] using lookupReq_map_overwrite rid rd t
  | false =>
    simp only [h, Bool.false_eq_true, if_false]
    exact lookupReq_append_single t rid rd h

theorem tableKeys_insertReq_mem (t : Table) (rid : String)
    (rd : PendingRequest) (h : memReq t rid = true) :
    tableKeys (insertReq t rid rd) = tableKeys t := by
  unfold insertReq
  simp only [h, if_true]
  unfold tableKeys
  rw [List.map_map]
  apply List.map_congr_left
  intro e _
  cases he : (e.1 == rid) with
  | true =>
    simp only [Function.comp, he, if_true]
    exact (eq_of_beq he).symm
  | false => simp [Function.comp, he]

theorem tableKeys_insertReq_not_mem (t : Table) (rid : String)
    (rd : PendingRequest) (h : memReq t rid = false) :
    tableKeys (insertReq t rid rd) = tableKeys t ++ [rid] := by
  unfold insertReq
  simp [h, tableKeys]

theorem not_mem_tableKeys_of_memReq_false (t : Table) (rid : String)
    (h : memReq t rid = false) : rid ∉ tableKeys t := by
  intro hmem
  simp only [tableKeys, List.mem_map] at hmem
  obtain ⟨e, he, heq⟩ := hmem
  simp only [memReq, List.any_eq_false] at h
  exact h e he (by simp [heq])

theorem nodup_tableKeys_insertReq (t : Table) (rid : String)
    (rd : PendingRequest) (h : (tableKeys t).Nodup) :
    (tableKeys (insertReq t rid rd)).Nodup := by
  cases hm : memReq t rid with
  | true => rwa [tableKeys_insertReq_mem t rid rd hm]
  | false =>
    rw [tableKeys_insertReq_not_mem t rid rd hm]
    simp only [List.nodup_append, List.nodup_cons, List.not_mem_nil,
      not_false_iff, List.nodup_nil, and_true, true_and]
    refine ⟨h, ?_⟩
    intro x hx hx'
    simp only [List.mem_singleton] at hx'
    exact not_mem_tableKeys_of_memReq_false t rid hm (hx' ▸ hx)

/-! ## C1 -/

/-- C1: at most one reply delivery transitions a pending-request entry from
incomplete to complete.  If a `summarization_result` arrives for an
identifier absent from the table, or whose entry already has
`completed = True`, the handler leaves the table and the run's result
sequence unchanged and only acknowledges; in particular the second and any
later delivery for the same identifier is a no-op on the table. -/
theorem C1_reply_delivery_at_most_once
    (score : String → String → RougeScores) (now now' : Nat)
    (st st' : RunState) (table : Table) (request_id : String)
    (aid aid' : Nat) (gsum gsum' : String) (err err' : Option String) :
    ((lookupReq table request_id = none ∨
        ∃ rd, lookupReq table request_id = some rd ∧ rd.completed = true) →
      (handle_summarization_result score now st table request_id aid gsum
          err).2.1 = table ∧
      (handle_summarization_result score now st table request_id aid gsum
          err).1.results = st.results ∧
      (handle_summarization_result score now st table request_id aid gsum
          err).2.2 = true) ∧
    (∀ rd, lookupReq table request_id = some rd → rd.completed = false →
      (handle_summarization_result score now' st'
          (handle_summarization_result score now st table request_id aid gsum
            err).2.1 request_id aid' gsum' err').2.1 =
        (handle_summarization_result score now st table request_id aid gsum
          err).2.1) := by
  constructor
  · intro h
    rcases h with h | ⟨rd, hrd, hc⟩
    · simp [handle_summarization_result, h, logAppend]
    · simp [handle_summarization_result, hrd, hc, logAppend]
  · intro rd hrd hc
    cases err with
    | none =>
      simp only [handle_summarization_result, hrd, hc]
      simp [handle_summarization_result, lookupReq_insertReq_self]
    | some e =>
      simp only [handle_summarization_result, hrd, hc]
      simp [handle_summarization_result, lookupReq_insertReq_self]

/-- Concrete instance of C1: a delivery for an unknown identifier leaves the
empty table unchanged, and after one successful delivery for a fresh entry a
second delivery leaves the table as the first left it. -/
theorem C1_reply_delivery_at_most_once_witness :
    (handle_summarization_result zeroScore 6 {} [] "r1" 1 "sum"
        none).2.1 = [] ∧
    (handle_summarization_result zeroScore 7 {}
        ((handle_summarization_result zeroScore 6 {} [("r1", samplePending)]
          "r1" 1 "sum" none).2.1) "r1" 1 "other" none).2.1 =
      (handle_summarization_result zeroScore 6 {} [("r1", samplePending)]
        "r1" 1 "sum" none).2.1 := by
  constructor
  · exact ((C1_reply_delivery_at_most_once zeroScore 6 7 {} {} [] "r1" 1 1
      "sum" "other" none none).1 (Or.inl rfl)).1
  · exact (C1_reply_delivery_at_most_once zeroScore 6 7 {} {}
      [("r1", samplePending)] "r1" 1 1 "sum" "other" none none).2
      samplePending rfl rfl

/-! ## C7 -/

/-- C7: a `start_evaluation` request while a run is already active for the
same session returns the conflict error, spawns no background run, and
leaves the session state exactly as it was. -/
theorem C7_start_while_running_conflict (st : RunState) (ma : Nat)
    (mode cfg dataset : String) (h : st.is_running = true) :
    start_evaluation st ma mode cfg dataset = (.conflict, st, false) := by
  simp [start_evaluation, h]

/-- Concrete instance of C7. -/
theorem C7_start_while_running_conflict_witness :
    ({ is_running := true : RunState }).is_running = true ∧
    start_evaluation { is_running := true } 5 "single" "c" "sample" =
      (.conflict, { is_running := true }, false) :=
  ⟨rfl, C7_start_while_running_conflict { is_running := true } 5 "single" "c"
    "sample" rfl⟩

/-! ## C8 -/

/-- C8: a `start_evaluation` request naming a dataset key outside the
catalog is rejected with the invalid-dataset error; the session state is
returned unchanged (so `is_running` stays `false`) and no background
evaluation thread is spawned. -/
theorem C8_start_unknown_dataset_rejected (st : RunState) (ma : Nat)
    (mode cfg dataset : String) (h1 : st.is_running = false)
    (h2 : dataset ∉ AVAILABLE_DATASETS) :
    start_evaluation st ma mode cfg dataset =
      (.invalidDataset dataset, st, false) ∧
    ((start_evaluation st ma mode cfg dataset).2.1).is_running = false := by
  have hmain : start_evaluation st ma mode cfg dataset =
      (.invalidDataset dataset, st, false) := by
    simp [start_evaluation, h1, h2]
  exact ⟨hmain, by rw [hmain]; exact h1⟩

/-- Concrete instance of C8. -/
theorem C8_start_unknown_dataset_rejected_witness :
    start_evaluation {} 5 "single" "c" "bogus" =
      (.invalidDataset "bogus", {}, false) ∧
    ((start_evaluation {} 5 "single" "c" "bogus").2.1).is_running = false :=
  C8_start_unknown_dataset_rejected {} 5 "single" "c" "bogus" rfl (by decide)

/-! ## C9 -/

/-- C9: computing a scored result from a reply whose candidate summary is
the empty string does not fail: the compression-ratio division is guarded,
so a zero-length summary yields compression ratio 0; the same guard is the
one used by the fallback-result constructor. -/
theorem C9_empty_summary_compression_zero
    (score : String → String → RougeScores) (a : Article) (cfg : String)
    (pt : ℚ) (now : Nat) :
    (browserApiResult score a cfg "" pt now).compression_ratio_val = 0 ∧
    ∀ alen : Nat, compressionRatioOf alen 0 = 0 := by
  constructor
  · have h0 : ("" : String).length = 0 := rfl
    simp [browserApiResult, compressionRatioOf, h0]
  · intro alen
    simp [compressionRatioOf]

/-! ## C10 -/

/-- C10: request identifiers embed the issue time truncated to whole
seconds, so the initial and a retry registration for the same (article id,
configuration) within the same second build the identical identifier; dict
assignment for an existing identifier replaces the entry in place (same key
set, new value), and registration preserves key uniqueness, so the table
never holds two entries with the same identifier. -/
theorem C10_same_second_identifiers_collide_and_replace
    (aid t : Nat) (cfg : String) (tab : Table) (rid : String)
    (rd : PendingRequest) :
    (cfg ≠ "" → requestIdInitial aid cfg t = requestIdRetry aid cfg t) ∧
    (memReq tab rid = true →
      lookupReq (insertReq tab rid rd) rid = some rd ∧
      tableKeys (insertReq tab rid rd) = tableKeys tab) ∧
    ((tableKeys tab).Nodup → (tableKeys (insertReq tab rid rd)).Nodup) := by
  refine ⟨?_, fun h => ⟨lookupReq_insertReq_self _ _ _,
    tableKeys_insertReq_mem _ _ _ h⟩, nodup_tableKeys_insertReq _ _ _⟩
  intro hc
  simp [requestIdInitial, requestIdRetry, requestSuffixInitial,
    requestSuffixRetry, hc]

/-- Concrete instance of C10 at article 1, configuration `"c"`, second 5,
over a table already holding the identifier being re-registered. -/
theorem C10_same_second_identifiers_collide_and_replace_witness :
    requestIdInitial 1 "c" 5 = requestIdRetry 1 "c" 5 ∧
    lookupReq (insertReq [(requestIdRetry 1 "c" 5, samplePending)]
        (requestIdRetry 1 "c" 5)
        { samplePending with retry_attempt := some 1 })
      (requestIdRetry 1 "c" 5) =
      some { samplePending with retry_attempt := some 1 } ∧
    tableKeys (insertReq [(requestIdRetry 1 "c" 5, samplePending)]
        (requestIdRetry 1 "c" 5)
        { samplePending with retry_attempt := some 1 }) =
      tableKeys [(requestIdRetry 1 "c" 5, samplePending)] ∧
    (tableKeys (insertReq [(requestIdRetry 1 "c" 5, samplePending)]
        (requestIdRetry 1 "c" 5)
        { samplePending with retry_attempt := some 1 })).Nodup := by
  obtain ⟨h1, h2, h3⟩ :=
    C10_same_second_identifiers_collide_and_replace 1 5 "c"
      [(requestIdRetry 1 "c" 5, samplePending)] (requestIdRetry 1 "c" 5)
      { samplePending with retry_attempt := some 1 }
  have hm : memReq [(requestIdRetry 1 "c" 5, samplePending)]
      (requestIdRetry 1 "c" 5) = true := by decide
  exact ⟨h1 (by decide), (h2 hm).1, (h2 hm).2, h3 (by decide)⟩

/-! ## C6 -/

/-- C6 counterexample: the Idle-to-Running transition does NOT reset the
log sequence to empty.  Starting from a session whose log trail is
non-empty, the state reached after `start_evaluation` records the run
configuration and `run_evaluation` performs its reset block has an empty
result sequence but a non-empty log sequence (the old entry is retained),
refuting the claim that both sequences are reset to empty. -/
theorem C6_counterexample :
    (runStartState (start_evaluation c6State 5 "single"
        "tldr_short_plain-text" "sample").2.1 3).results = [] ∧
    (runStartState (start_evaluation c6State 5 "single"
        "tldr_short_plain-text" "sample").2.1 3).logs ≠ [] := by
  constructor
  · rfl
  · decide

/-- C6 (amended): the Idle-to-Running transition resets the run's result
sequence to empty (and the progress counter to 0), records the run's mode
and configuration selection, and flips `is_running`; the log sequence is
retained and appended to, not reset. -/
theorem C6_start_transition_resets_results_retains_logs
    (st0 : RunState) (ma n : Nat) (mode cfg dataset : String)
    (h1 : st0.is_running = false) (h2 : dataset ∈ AVAILABLE_DATASETS) :
    (runStartState (start_evaluation st0 ma mode cfg dataset).2.1 n).results
        = [] ∧
    (runStartState (start_evaluation st0 ma mode cfg dataset).2.1
        n).current_article = 0 ∧
    (runStartState (start_evaluation st0 ma mode cfg dataset).2.1
        n).is_running = true ∧
    (runStartState (start_evaluation st0 ma mode cfg dataset).2.1
        n).total_articles = n ∧
    (runStartState (start_evaluation st0 ma mode cfg dataset).2.1
        n).evaluation_mode = some mode ∧
    (runStartState (start_evaluation st0 ma mode cfg dataset).2.1
        n).selected_config = some cfg ∧
    (runStartState (start_evaluation st0 ma mode cfg dataset).2.1 n).logs
        = st0.logs ++ ["Starting evaluation process..."] := by
  simp [runStartState, start_evaluation, h1, h2, logAppend]

/-- Concrete instance of the amended C6. -/
theorem C6_start_transition_resets_results_retains_logs_witness :
    (runStartState (start_evaluation c6State 5 "single" "c"
        "sample").2.1 3).results = [] ∧
    (runStartState (start_evaluation c6State 5 "single" "c"
        "sample").2.1 3).current_article = 0 ∧
    (runStartState (start_evaluation c6State 5 "single" "c"
        "sample").2.1 3).is_running = true ∧
    (runStartState (start_evaluation c6State 5 "single" "c"
        "sample").2.1 3).total_articles = 3 ∧
    (runStartState (start_evaluation c6State 5 "single" "c"
        "sample").2.1 3).evaluation_mode = some "single" ∧
    (runStartState (start_evaluation c6State 5 "single" "c"
        "sample").2.1 3).selected_config = some "c" ∧
    (runStartState (start_evaluation c6State 5 "single" "c"
        "sample").2.1 3).logs =
      c6State.logs ++ ["Starting evaluation process..."] :=
  C6_start_transition_resets_results_retains_logs c6State 5 3 "single" "c"
    "sample" rfl (by decide)

/-! ## Lemmas about the Python string maximum -/

theorem pyStrMax_eq_or (a b : String) : pyStrMax a b = a ∨ pyStrMax a b = b := by
  unfold pyStrMax
  split
  · right; rfl
  · left; rfl

theorem le_pyStrMax_left (a b : String) : a.data ≤ (pyStrMax a b).data := by
  unfold pyStrMax
  split
  · exact le_of_lt (by assumption)
  · exact le_refl _

theorem le_pyStrMax_right (a b : String) : b.data ≤ (pyStrMax a b).data := by
  unfold pyStrMax
  split
  · exact le_refl _
  · exact le_of_not_lt (by assumption)

theorem foldl_pyStrMax_mem :
    ∀ (xs : List String) (x : String),
      xs.foldl pyStrMax x = x ∨ xs.foldl pyStrMax x ∈ xs := by
  intro xs
  induction xs with
  | nil => intro x; left; rfl
  | cons y ys ih =>
    intro x
    rw [List.foldl_cons]
    rcases ih (pyStrMax x y) with h | h
    · rw [h]
      rcases pyStrMax_eq_or x y with h2 | h2
      · left; exact h2
      · right; rw [h2]; exact List.mem_cons_self _ _
    · right; exact List.mem_cons_of_mem _ h

theorem le_foldl_pyStrMax :
    ∀ (xs : List String) (x y : String), y ∈ x :: xs →
      y.data ≤ (xs.foldl pyStrMax x).data := by
  intro xs
  induction xs with
  | nil =>
    intro x y hy
    simp only [List.mem_singleton] at hy
    subst hy
    exact le_refl _
  | cons z zs ih =>
    intro x y hy
    rw [List.foldl_cons]
    rcases List.mem_cons.mp hy with rfl | hy'
    · exact le_trans (le_pyStrMax_left y z)
        (ih (pyStrMax y z) _ (List.mem_cons_self _ _))
    · rcases List.mem_cons.mp hy' with rfl | hyz
      · exact le_trans (le_pyStrMax_right x y)
          (ih (pyStrMax x y) _ (List.mem_cons_self _ _))
      · exact ih (pyStrMax x z) y (List.mem_cons_of_mem _ hyz)

theorem pyMaxList_spec (xs : List String) (hne : xs ≠ []) :
    ∃ m, pyMaxList xs = some m ∧ m ∈ xs ∧ ∀ y ∈ xs, y.data ≤ m.data := by
  cases xs with
  | nil => exact absurd rfl hne
  | cons x rest =>
    refine ⟨rest.foldl pyStrMax x, rfl, ?_, ?_⟩
    · rcases foldl_pyStrMax_mem rest x with h | h
      · rw [h]; exact List.mem_cons_self _ _
      · exact List.mem_cons_of_mem _ h
    · intro y hy
      exact le_foldl_pyStrMax rest x y hy

/-! ## C3 -/

/-- C3 counterexample: the correlation lookup does NOT select the
most-recently-issued identifier for all possible issue timestamps.  With
pending identifiers for (article 1, configuration `"c"`) issued at seconds
9 and 10 (so `req_1_c_10` is the more recent), the lookup returns
`req_1_c_9`, because Python's `max` compares the identifier strings
lexicographically and `"req_1_c_9" > "req_1_c_10"`. -/
theorem C3_counterexample :
    findMatchingRequestId
        [(requestIdRetry 1 "c" 9, samplePending),
         (requestIdRetry 1 "c" 10, samplePending)] 1 "c" =
      some (requestIdRetry 1 "c" 9) ∧
    requestIdRetry 1 "c" 9 ≠ requestIdRetry 1 "c" 10 ∧ (9 : Nat) < 10 := by
  refine ⟨by decide, by decide, by norm_num⟩

/-- C3 (amended): among pending identifiers sharing the same (article id,
configuration) prefix, the correlation lookup selects the lexicographically
greatest identifier.  This is the most recently issued one exactly when
identifiers issued later compare lexicographically greater (as happens when
all embedded timestamps have the same decimal width) — not for all possible
issue timestamps. -/
theorem C3_lookup_selects_lexicographic_max
    (tab : Table) (aid : Nat) (cfg : String) (ts : List Nat) (M : Nat)
    (hkeys : (tableKeys tab).filter
        (fun rid => startswith (requestKeyPfx aid cfg) rid) =
      ts.map (fun t => requestIdRetry aid cfg t))
    (hM : M ∈ ts) (hmax : ∀ t ∈ ts, t ≤ M)
    (hmono : ∀ t₁ ∈ ts, ∀ t₂ ∈ ts, t₁ < t₂ →
      (requestIdRetry aid cfg t₁).data < (requestIdRetry aid cfg t₂).data) :
    findMatchingRequestId tab aid cfg = some (requestIdRetry aid cfg M) := by
  unfold findMatchingRequestId
  rw [hkeys]
  have hne : ts.map (fun t => requestIdRetry aid cfg t) ≠ [] :=
    List.ne_nil_of_mem (List.mem_map_of_mem _ hM)
  obtain ⟨m, hm_eq, hm_mem, hm_ge⟩ := pyMaxList_spec _ hne
  rw [hm_eq]
  congr 1
  obtain ⟨t₀, ht₀, rfl⟩ := List.mem_map.mp hm_mem
  rcases eq_or_lt_of_le (hmax t₀ ht₀) with rfl | hlt
  · rfl
  · exact absurd (hm_ge (requestIdRetry aid cfg M) (List.mem_map_of_mem _ hM))
      (not_le_of_lt (hmono t₀ ht₀ M hM hlt))

/-- Concrete instance of the amended C3: timestamps 5 and 7 have the same
decimal width, so the lexicographic maximum is the most recent identifier. -/
theorem C3_lookup_selects_lexicographic_max_witness :
    findMatchingRequestId
        [(requestIdRetry 1 "c" 5, samplePending),
         (requestIdRetry 1 "c" 7, samplePending)] 1 "c" =
      some (requestIdRetry 1 "c" 7) := by
  apply C3_lookup_selects_lexicographic_max _ _ _ [5, 7] 7
  · decide
  · decide
  · decide
  · decide

/-! ## Lemmas about request identifiers and clean tables -/

theorem requestIdRetry_eq_pfx_append (aid : Nat) (cfg : String) (t : Nat) :
    requestIdRetry aid cfg t = requestKeyPfx aid cfg ++ Nat.repr t := rfl

theorem requestIdInitial_eq_retry (aid : Nat) (cfg : String) (t : Nat)
    (h : cfg ≠ "") : requestIdInitial aid cfg t = requestIdRetry aid cfg t := by
  simp [requestIdInitial, requestIdRetry, requestSuffixInitial,
    requestSuffixRetry, h]

theorem startswith_pfx_requestIdRetry (aid : Nat) (cfg : String) (t : Nat) :
    startswith (requestKeyPfx aid cfg) (requestIdRetry aid cfg t) = true := by
  rw [requestIdRetry_eq_pfx_append]
  unfold startswith
  rw [String.data_append]
  simp [ List.isPrefixOf_iff_prefix]

theorem requestIdRetry_inj (aid : Nat) (cfg : String) (t₁ t₂ : Nat)
    (h : requestIdRetry aid cfg t₁ = requestIdRetry aid cfg t₂) : t₁ = t₂ := by
  rw [requestIdRetry_eq_pfx_append, requestIdRetry_eq_pfx_append] at h
  have hd := congrArg String.data h
  rw [String.data_append, String.data_append] at hd
  have hrepr : (Nat.repr t₁).data = (Nat.repr t₂).data :=
    List.append_cancel_left hd
  calc t₁ = parseDigits (Nat.repr t₁).data := (parseDigits_repr t₁).symm
  _ = parseDigits (Nat.repr t₂).data := by rw [hrepr]
  _ = t₂ := parseDigits_repr t₂

theorem memReq_eq_true_iff (t : Table) (rid : String) :
    memReq t rid = true ↔ rid ∈ tableKeys t := by
  simp only [memReq, List.any_eq_true, tableKeys, List.mem_map, beq_iff_eq]

theorem memReq_false_of_clean (tab : Table) (aid : Nat) (cfg : String)
    (t : Nat)
    (hclean : ∀ rid ∈ tableKeys tab,
      startswith (requestKeyPfx aid cfg) rid = false) :
    memReq tab (requestIdRetry aid cfg t) = false := by
  cases h : memReq tab (requestIdRetry aid cfg t) with
  | false => rfl
  | true =>
    have hmem := (memReq_eq_true_iff tab _).mp h
    have := hclean _ hmem
    rw [startswith_pfx_requestIdRetry] at this
    exact absurd this (by simp)

theorem tableKeys_append (t₁ t₂ : Table) :
    tableKeys (t₁ ++ t₂) = tableKeys t₁ ++ tableKeys t₂ := by
  simp [tableKeys]

theorem findMatching_append_single (tab : Table) (aid : Nat) (cfg : String)
    (t : Nat) (e : PendingRequest)
    (hclean : ∀ rid ∈ tableKeys tab,
      startswith (requestKeyPfx aid cfg) rid = false) :
    findMatchingRequestId (tab ++ [(requestIdRetry aid cfg t, e)]) aid cfg =
      some (requestIdRetry aid cfg t) := by
  unfold findMatchingRequestId
  rw [tableKeys_append, List.filter_append]
  have h1 : (tableKeys tab).filter
      (fun rid => startswith (requestKeyPfx aid cfg) rid) = [] := by
    apply List.filter_eq_nil_iff.mpr
    intro rid hrid
    simp [hclean rid hrid]
  have h2 : (tableKeys [(requestIdRetry aid cfg t, e)]).filter
      (fun rid => startswith (requestKeyPfx aid cfg) rid) =
      [requestIdRetry aid cfg t] := by
    simp [tableKeys, startswith_pfx_requestIdRetry]
  rw [h1, h2, List.nil_append]
  rfl

theorem eraseReq_append_single (tab : Table) (rid : String)
    (e : PendingRequest) (h : ∀ k ∈ tableKeys tab, k ≠ rid) :
    eraseReq (tab ++ [(rid, e)]) rid = tab := by
  unfold eraseReq
  rw [List.filter_append]
  have h2 : [(rid, e)].filter (fun x => x.1 != rid) = [] := by simp
  rw [h2, List.append_nil]
  apply List.filter_eq_self.mpr
  intro x hx
  have := h x.1 (by simp [tableKeys]; exact ⟨x.2, hx⟩)
  simp [this]

theorem insertReq_not_mem (t : Table) (rid : String) (rd : PendingRequest)
    (h : memReq t rid = false) : insertReq t rid rd = t ++ [(rid, rd)] := by
  unfold insertReq
  simp [h]

theorem keys_ne_of_clean (tab : Table) (aid : Nat) (cfg : String) (t : Nat)
    (hclean : ∀ rid ∈ tableKeys tab,
      startswith (requestKeyPfx aid cfg) rid = false) :
    ∀ k ∈ tableKeys tab, k ≠ requestIdRetry aid cfg t := by
  intro k hk heq
  have h1 := hclean k hk
  rw [heq, startswith_pfx_requestIdRetry] at h1
  exact absurd h1 (by simp)

theorem waitAttempts_all_none (score : String → String → RougeScores)
    (a : Article) (cfg : String) (times : Nat → Nat) (tEnd maxRetries : Nat) :
    ∀ (ks : List Nat) (st : RunState) (tab : Table) (em : List String),
      (∀ j ∈ ks, 1 ≤ j) →
      (∀ rid ∈ tableKeys tab,
        startswith (requestKeyPfx a.id cfg) rid = false) →
      (waitAttempts score a cfg (fun _ => none) times tEnd maxRetries ks
          ⟨st, tab, em⟩).1.table = tab ∧
      (waitAttempts score a cfg (fun _ => none) times tEnd maxRetries ks
          ⟨st, tab, em⟩).1.emitted =
        em ++ ks.map (fun j => requestIdRetry a.id cfg (times j)) ∧
      (waitAttempts score a cfg (fun _ => none) times tEnd maxRetries ks
          ⟨st, tab, em⟩).2 = some (create_mock_result score a cfg tEnd) := by
  intro ks
  induction ks with
  | nil =>
    intro st tab em _ _
    simp [waitAttempts]
  | cons k rest ih =>
    intro st tab em hge hclean
    have hk0 : ¬ (k = 0) := by
      have := hge k (List.mem_cons_self _ _)
      omega
    have hmem : memReq tab (requestIdRetry a.id cfg (times k)) = false :=
      memReq_false_of_clean tab a.id cfg (times k) hclean
    simp only [waitAttempts, hk0, if_false, if_neg hk0,
      insertReq_not_mem tab _ _ hmem,
      findMatching_append_single tab a.id cfg (times k) _ hclean,
      lookupReq_append_single tab _ _ hmem,
      eraseReq_append_single tab _ _ (keys_ne_of_clean tab a.id cfg (times k) hclean)]
    simp only [Bool.false_eq_true, if_false]
    obtain ⟨h1, h2, h3⟩ := ih
      (logAppend (logAppend st ("Retry attempt " ++ Nat.repr k ++ "/"
        ++ Nat.repr maxRetries ++ " for article " ++ Nat.repr a.id
        ++ ", config: " ++ cfg))
        (if k < maxRetries then
            "Timeout on attempt " ++ Nat.repr (k + 1) ++ "/"
              ++ Nat.repr (maxRetries + 1) ++ " for article "
              ++ Nat.repr a.id ++ ", config: " ++ cfg
          else
            "Final timeout after " ++ Nat.repr (maxRetries + 1)
              ++ " attempts for article " ++ Nat.repr a.id
              ++ ", config: " ++ cfg))
      tab (em ++ [requestIdRetry a.id cfg (times k)])
      (fun j hj => hge j (List.mem_cons_of_mem _ hj)) hclean
    refine ⟨h1, ?_, h3⟩
    rw [h2, List.append_assoc]
    simp

/-! ## C4 -/

/-- C4: with retry budget `max_retries = r` and every attempt timing out
without a reply, the dispatch/wait protocol for one (article,
configuration) pair publishes exactly `r + 1` summarize requests (one
initial plus `r` retries), each carrying a distinct request identifier
(provided the whole-second issue times increase across attempts, as the
per-attempt timeout of at least one second guarantees), and after the
final timeout it returns the synthesized fallback result (tagged
`mock_fallback`) instead of failing. -/
theorem C4_retry_budget_all_timeouts
    (score : String → String → RougeScores) (a : Article) (cfg : String)
    (times : Nat → Nat) (tEnd maxRetries : Nat) (ps : ProtoState)
    (hcfg : cfg ≠ "")
    (hmono : ∀ j k : Nat, j < k → k ≤ maxRetries → times j < times k)
    (hclean : ∀ rid ∈ tableKeys ps.table,
      startswith (requestKeyPfx a.id cfg) rid = false) :
    (dispatchConfig score a cfg (fun _ => none) times tEnd maxRetries
        ps).1.emitted =
      ps.emitted ++ (List.range (maxRetries + 1)).map
        (fun k => requestIdRetry a.id cfg (times k)) ∧
    ((List.range (maxRetries + 1)).map
        (fun k => requestIdRetry a.id cfg (times k))).Nodup ∧
    (dispatchConfig score a cfg (fun _ => none) times tEnd maxRetries
        ps).2 = some (create_mock_result score a cfg tEnd) ∧
    (create_mock_result score a cfg tEnd).source = "mock_fallback" := by
  have hnodup : ((List.range (maxRetries + 1)).map
      (fun k => requestIdRetry a.id cfg (times k))).Nodup := by
    apply List.Nodup.map_on _ (List.nodup_range _)
    intro x hx y hy hf
    simp only [List.mem_range] at hx hy
    have heq := requestIdRetry_inj a.id cfg (times x) (times y) hf
    rcases lt_trichotomy x y with h | h | h
    · exact absurd heq (Nat.ne_of_lt (hmono x y h (by omega)))
    · exact h
    · exact absurd heq.symm (Nat.ne_of_lt (hmono y x h (by omega)))
  have hrw : requestIdInitial a.id cfg (times 0) =
      requestIdRetry a.id cfg (times 0) :=
    requestIdInitial_eq_retry _ _ _ hcfg
  have hmem0 : memReq ps.table (requestIdRetry a.id cfg (times 0)) = false :=
    memReq_false_of_clean _ _ _ _ hclean
  have hge1 : ∀ j ∈ (List.range maxRetries).map Nat.succ, 1 ≤ j := by
    intro j hj
    simp only [List.mem_map] at hj
    obtain ⟨i, _, rfl⟩ := hj
    omega
  refine ⟨?_, hnodup, ?_, rfl⟩
  · simp only [dispatchConfig, wait_for_browser_response, hrw,
      insertReq_not_mem _ _ _ hmem0]
    rw [List.range_succ_eq_map]
    simp only [waitAttempts, eq_self_iff_true, if_true,
      findMatching_append_single ps.table a.id cfg (times 0) _ hclean,
      lookupReq_append_single ps.table _ _ hmem0,
      eraseReq_append_single ps.table _ _
        (keys_ne_of_clean ps.table a.id cfg (times 0) hclean),
      Bool.false_eq_true, if_false]
    rw [(waitAttempts_all_none score a cfg times tEnd maxRetries
      ((List.range maxRetries).map Nat.succ) _ ps.table _ hge1 hclean).2.1]
    simp [List.append_assoc]
  · simp only [dispatchConfig, wait_for_browser_response, hrw,
      insertReq_not_mem _ _ _ hmem0]
    rw [List.range_succ_eq_map]
    simp only [waitAttempts, eq_self_iff_true, if_true,
      findMatching_append_single ps.table a.id cfg (times 0) _ hclean,
      lookupReq_append_single ps.table _ _ hmem0,
      eraseReq_append_single ps.table _ _
        (keys_ne_of_clean ps.table a.id cfg (times 0) hclean),
      Bool.false_eq_true, if_false]
    exact (waitAttempts_all_none score a cfg times tEnd maxRetries
      ((List.range maxRetries).map Nat.succ) _ ps.table _ hge1 hclean).2.2

/-- Concrete instance of C4: retry budget 2 (three attempts), issue times
10, 11, 12, empty table: three distinct identifiers are published and the
protocol returns the fallback result. -/
theorem C4_retry_budget_all_timeouts_witness :
    (dispatchConfig zeroScore sampleArticle "c" (fun _ => none)
        (fun k => 10 + k) 13 2 ⟨{}, [], []⟩).1.emitted =
      [] ++ (List.range 3).map
        (fun k => requestIdRetry sampleArticle.id "c" (10 + k)) ∧
    ((List.range 3).map
        (fun k => requestIdRetry sampleArticle.id "c" (10 + k))).Nodup ∧
    (dispatchConfig zeroScore sampleArticle "c" (fun _ => none)
        (fun k => 10 + k) 13 2 ⟨{}, [], []⟩).2 =
      some (create_mock_result zeroScore sampleArticle "c" 13) ∧
    (create_mock_result zeroScore sampleArticle "c" 13).source =
      "mock_fallback" :=
  C4_retry_budget_all_timeouts zeroScore sampleArticle "c"
    (fun k => 10 + k) 13 2 ⟨{}, [], []⟩ (by decide)
    (fun j k hjk _ => by show 10 + j < 10 + k; omega)
    (by intro rid h; simp [tableKeys] at h)

/-! ## Invariance lemmas for the protocol state -/

theorem sameExceptLogs_refl (s : RunState) : SameExceptLogs s s :=
  ⟨rfl, rfl, rfl, rfl, rfl, rfl, rfl⟩

theorem sameExceptLogs_trans {s s₁ s₂ : RunState}
    (h₁ : SameExceptLogs s s₁) (h₂ : SameExceptLogs s₁ s₂) :
    SameExceptLogs s s₂ := by
  obtain ⟨a1, a2, a3, a4, a5, a6, a7⟩ := h₁
  obtain ⟨b1, b2, b3, b4, b5, b6, b7⟩ := h₂
  exact ⟨b1.trans a1, b2.trans a2, b3.trans a3, b4.trans a4, b5.trans a5,
    b6.trans a6, b7.trans a7⟩

theorem sameExceptLogs_logAppend (s : RunState) (m : String) :
    SameExceptLogs s (logAppend s m) :=
  ⟨rfl, rfl, rfl, rfl, rfl, rfl, rfl⟩

theorem SameExceptLogs.mode_eq {s s' : RunState} (h : SameExceptLogs s s') :
    s'.mode = s.mode := by
  unfold RunState.mode
  rw [h.2.2.2.2.1]

theorem SameExceptLogs.selConfig_eq {s s' : RunState}
    (h : SameExceptLogs s s') : s'.selConfig = s.selConfig := by
  unfold RunState.selConfig
  rw [h.2.2.2.2.2.1]

theorem lookupReq_mem (t : Table) (rid : String) (rd : PendingRequest)
    (h : lookupReq t rid = some rd) : ∃ p ∈ t, p.2 = rd := by
  unfold lookupReq at h
  cases hf : t.find? (fun e => e.1 == rid) with
  | none => rw [hf] at h; exact absurd h (by simp)
  | some p =>
    rw [hf] at h
    refine ⟨p, List.mem_of_find?_eq_some hf, ?_⟩
    injection h

theorem TableInv_insert (t : Table) (rid : String) (rd : PendingRequest)
    (h : TableInv t) (hrd : rd.completed = true → rd.result.isSome) :
    TableInv (insertReq t rid rd) := by
  unfold insertReq
  split
  · intro e he
    simp only [List.mem_map] at he
    obtain ⟨p, hp, hpe⟩ := he
    by_cases hbe : (p.1 == rid) = true
    · rw [if_pos hbe] at hpe
      subst hpe
      exact hrd
    · rw [if_neg hbe] at hpe
      subst hpe
      exact h p hp
  · intro e he
    rcases List.mem_append.mp he with h1 | h1
    · exact h e h1
    · simp only [List.mem_singleton] at h1
      subst h1
      exact hrd

theorem TableInv_erase (t : Table) (rid : String) (h : TableInv t) :
    TableInv (eraseReq t rid) := by
  intro e he
  exact h e (List.mem_of_mem_filter he)

theorem TableInv_handler (score : String → String → RougeScores) (now : Nat)
    (st : RunState) (table : Table) (rid : String) (aid : Nat)
    (gsum : String) (err : Option String) (h : TableInv table) :
    TableInv (handle_summarization_result score now st table rid aid gsum
      err).2.1 := by
  unfold handle_summarization_result
  split
  · exact h
  · split
    · exact h
    · split
      · exact TableInv_insert _ _ _ h (fun _ => rfl)
      · exact TableInv_insert _ _ _ h (fun _ => rfl)

theorem handler_SameExceptLogs (score : String → String → RougeScores)
    (now : Nat) (st : RunState) (table : Table) (rid : String) (aid : Nat)
    (gsum : String) (err : Option String) :
    SameExceptLogs st (handle_summarization_result score now st table rid
      aid gsum err).1 := by
  unfold handle_summarization_result
  split
  · exact sameExceptLogs_logAppend _ _
  · split
    · exact sameExceptLogs_logAppend _ _
    · split
      · exact sameExceptLogs_trans (sameExceptLogs_logAppend _ _)
          (sameExceptLogs_logAppend _ _)
      · exact sameExceptLogs_logAppend _ _

theorem waitAttempts_general (score : String → String → RougeScores)
    (a : Article) (cfg : String) (env : Nat → Option BrowserReply)
    (times : Nat → Nat) (tEnd maxRetries : Nat) :
    ∀ (ks : List Nat) (ps : ProtoState), TableInv ps.table →
      TableInv (waitAttempts score a cfg env times tEnd maxRetries ks
        ps).1.table ∧
      SameExceptLogs ps.st
        (waitAttempts score a cfg env times tEnd maxRetries ks ps).1.st ∧
      (waitAttempts score a cfg env times tEnd maxRetries ks
        ps).2.isSome = true := by
  intro ks
  induction ks with
  | nil =>
    intro ps h
    simp only [waitAttempts]
    exact ⟨h, sameExceptLogs_refl _, rfl⟩
  | cons k rest ih =>
    intro ps h
    by_cases hk : k = 0
    · subst hk
      simp only [waitAttempts, eq_self_iff_true, if_true]
      cases hfind : findMatchingRequestId ps.table a.id cfg with
      | none =>
        simp only [hfind]
        exact ⟨(ih _ (by exact h)).1,
          sameExceptLogs_trans (sameExceptLogs_logAppend _ _) (ih _ (by exact h)).2.1,
          (ih _ (by exact h)).2.2⟩
      | some rid =>
        simp only [hfind]
        cases henv : env 0 with
        | none =>
          simp only [henv]
          cases hlk : lookupReq ps.table rid with
          | none =>
            simp only [hlk]
            exact ih _ (by exact h)
          | some rd =>
            simp only [hlk]
            cases hc : rd.completed with
            | true =>
              simp only [hc, if_true]
              refine ⟨h, sameExceptLogs_logAppend _ _, ?_⟩
              obtain ⟨p, hp, hp2⟩ := lookupReq_mem _ _ _ hlk
              have := h p hp (by rw [hp2]; exact hc)
              rw [hp2] at this
              exact this
            | false =>
              simp only [hc, Bool.false_eq_true, if_false]
              exact ⟨(ih _ (by exact TableInv_erase _ _ h)).1,
                sameExceptLogs_trans (sameExceptLogs_logAppend _ _)
                  (ih _ (by exact TableInv_erase _ _ h)).2.1,
                (ih _ (by exact TableInv_erase _ _ h)).2.2⟩
        | some br =>
          simp only [henv]
          have hht : TableInv (handle_summarization_result score
              br.deliveredAt ps.st ps.table
              (requestIdInitial a.id cfg (times 0)) a.id br.summary
              br.error).2.1 := TableInv_handler _ _ _ _ _ _ _ _ h
          have hhs := handler_SameExceptLogs score br.deliveredAt ps.st
            ps.table (requestIdInitial a.id cfg (times 0)) a.id br.summary
            br.error
          cases hlk : lookupReq (handle_summarization_result score
              br.deliveredAt ps.st ps.table
              (requestIdInitial a.id cfg (times 0)) a.id br.summary
              br.error).2.1 rid with
          | none =>
            simp only [hlk]
            exact ⟨(ih _ (by exact hht)).1, sameExceptLogs_trans hhs (ih _ (by exact hht)).2.1,
              (ih _ (by exact hht)).2.2⟩
          | some rd =>
            simp only [hlk]
            cases hc : rd.completed with
            | true =>
              simp only [hc, if_true]
              refine ⟨hht, sameExceptLogs_trans hhs
                (sameExceptLogs_logAppend _ _), ?_⟩
              obtain ⟨p, hp, hp2⟩ := lookupReq_mem _ _ _ hlk
              have := hht p hp (by rw [hp2]; exact hc)
              rw [hp2] at this
              exact this
            | false =>
              simp only [hc, Bool.false_eq_true, if_false]
              exact ⟨(ih _ (by exact TableInv_erase _ _ hht)).1,
                sameExceptLogs_trans hhs (sameExceptLogs_trans
                  (sameExceptLogs_logAppend _ _)
                  (ih _ (by exact TableInv_erase _ _ hht)).2.1),
                (ih _ (by exact TableInv_erase _ _ hht)).2.2⟩
    · simp only [waitAttempts, hk, if_false]
      have hreg : TableInv (insertReq ps.table
          (requestIdRetry a.id cfg (times k))
          { article := a, config := cfg, result := none, completed := false,
            start_time := times k, retry_attempt := some k }) :=
        TableInv_insert _ _ _ h (fun hc => absurd hc Bool.false_ne_true)
      cases hfind : findMatchingRequestId (insertReq ps.table
          (requestIdRetry a.id cfg (times k))
          { article := a, config := cfg, result := none, completed := false,
            start_time := times k, retry_attempt := some k }) a.id cfg with
      | none =>
        simp only [hfind]
        exact ⟨(ih _ (by exact hreg)).1,
          sameExceptLogs_trans (sameExceptLogs_logAppend _ _)
            (ih _ (by exact hreg)).2.1,
          (ih _ (by exact hreg)).2.2⟩
      | some rid =>
        simp only [hfind]
        cases henv : env k with
        | none =>
          simp only [henv]
          cases hlk : lookupReq (insertReq ps.table
              (requestIdRetry a.id cfg (times k))
              { article := a, config := cfg, result := none,
                completed := false, start_time := times k,
                retry_attempt := some k }) rid with
          | none =>
            simp only [hlk]
            exact ⟨(ih _ (by exact hreg)).1,
              sameExceptLogs_trans (sameExceptLogs_logAppend _ _)
                (ih _ (by exact hreg)).2.1,
              (ih _ (by exact hreg)).2.2⟩
          | some rd =>
            simp only [hlk]
            cases hc : rd.completed with
            | true =>
              simp only [hc, if_true]
              refine ⟨hreg, sameExceptLogs_trans
                (sameExceptLogs_logAppend _ _)
                (sameExceptLogs_logAppend _ _), ?_⟩
              obtain ⟨p, hp, hp2⟩ := lookupReq_mem _ _ _ hlk
              have := hreg p hp (by rw [hp2]; exact hc)
              rw [hp2] at this
              exact this
            | false =>
              simp only [hc, Bool.false_eq_true, if_false]
              exact ⟨(ih _ (by exact TableInv_erase _ _ hreg)).1,
                sameExceptLogs_trans (sameExceptLogs_logAppend _ _)
                  (sameExceptLogs_trans (sameExceptLogs_logAppend _ _)
                    (ih _ (by exact TableInv_erase _ _ hreg)).2.1),
                (ih _ (by exact TableInv_erase _ _ hreg)).2.2⟩
        | some br =>
          simp only [henv]
          have hht : TableInv (handle_summarization_result score
              br.deliveredAt (logAppend ps.st ("Retry attempt "
                ++ Nat.repr k ++ "/" ++ Nat.repr maxRetries
                ++ " for article " ++ Nat.repr a.id ++ ", config: " ++ cfg))
              (insertReq ps.table (requestIdRetry a.id cfg (times k))
                { article := a, config := cfg, result := none,
                  completed := false, start_time := times k,
                  retry_attempt := some k })
              (requestIdRetry a.id cfg (times k)) a.id br.summary
              br.error).2.1 := TableInv_handler _ _ _ _ _ _ _ _ hreg
          have hhs := handler_SameExceptLogs score br.deliveredAt
            (logAppend ps.st ("Retry attempt " ++ Nat.repr k ++ "/"
              ++ Nat.repr maxRetries ++ " for article " ++ Nat.repr a.id
              ++ ", config: " ++ cfg))
            (insertReq ps.table (requestIdRetry a.id cfg (times k))
              { article := a, config := cfg, result := none,
                completed := false, start_time := times k,
                retry_attempt := some k })
            (requestIdRetry a.id cfg (times k)) a.id br.summary br.error
          cases hlk : lookupReq (handle_summarization_result score
              br.deliveredAt (logAppend ps.st ("Retry attempt "
                ++ Nat.repr k ++ "/" ++ Nat.repr maxRetries
                ++ " for article " ++ Nat.repr a.id ++ ", config: " ++ cfg))
              (insertReq ps.table (requestIdRetry a.id cfg (times k))
                { article := a, config := cfg, result := none,
                  completed := false, start_time := times k,
                  retry_attempt := some k })
              (requestIdRetry a.id cfg (times k)) a.id br.summary
              br.error).2.1 rid with
          | none =>
            simp only [hlk]
            exact ⟨(ih _ (by exact hht)).1,
              sameExceptLogs_trans (sameExceptLogs_logAppend _ _)
                (sameExceptLogs_trans hhs (ih _ (by exact hht)).2.1),
              (ih _ (by exact hht)).2.2⟩
          | some rd =>
            simp only [hlk]
            cases hc : rd.completed with
            | true =>
              simp only [hc, if_true]
              refine ⟨hht, sameExceptLogs_trans
                (sameExceptLogs_logAppend _ _) (sameExceptLogs_trans hhs
                  (sameExceptLogs_logAppend _ _)), ?_⟩
              obtain ⟨p, hp, hp2⟩ := lookupReq_mem _ _ _ hlk
              have := hht p hp (by rw [hp2]; exact hc)
              rw [hp2] at this
              exact this
            | false =>
              simp only [hc, Bool.false_eq_true, if_false]
              exact ⟨(ih _ (by exact TableInv_erase _ _ hht)).1,
                sameExceptLogs_trans (sameExceptLogs_logAppend _ _)
                  (sameExceptLogs_trans hhs (sameExceptLogs_trans
                    (sameExceptLogs_logAppend _ _)
                    (ih _ (by exact TableInv_erase _ _ hht)).2.1)),
                (ih _ (by exact TableInv_erase _ _ hht)).2.2⟩

theorem dispatchConfig_spec (score : String → String → RougeScores)
    (a : Article) (cfg : String) (env : Nat → Option BrowserReply)
    (times : Nat → Nat) (tEnd maxRetries : Nat) (ps : ProtoState)
    (h : TableInv ps.table) :
    TableInv (dispatchConfig score a cfg env times tEnd maxRetries
      ps).1.table ∧
    SameExceptLogs ps.st (dispatchConfig score a cfg env times tEnd
      maxRetries ps).1.st ∧
    (dispatchConfig score a cfg env times tEnd maxRetries ps).2.isSome
      = true := by
  simp only [dispatchConfig, wait_for_browser_response]
  refine ⟨(waitAttempts_general score a cfg env times tEnd maxRetries _ _
      ?_).1,
    sameExceptLogs_trans (sameExceptLogs_logAppend _ _)
      (waitAttempts_general score a cfg env times tEnd maxRetries _ _
        ?_).2.1,
    (waitAttempts_general score a cfg env times tEnd maxRetries _ _
      ?_).2.2⟩ <;>
  exact TableInv_insert _ _ _ h (fun hc => absurd hc Bool.false_ne_true)

theorem processConfigs_spec (score : String → String → RougeScores)
    (a : Article) (env : String → Nat → Option BrowserReply)
    (times : String → Nat → Nat) (tEnd : String → Nat) (maxRetries : Nat) :
    ∀ (cfgs : List String) (ps : ProtoState) (acc : List ScoredResult),
      TableInv ps.table →
      TableInv (processConfigs score a env times tEnd maxRetries cfgs ps
        acc).1.table ∧
      SameExceptLogs ps.st (processConfigs score a env times tEnd maxRetries
        cfgs ps acc).1.st ∧
      (processConfigs score a env times tEnd maxRetries cfgs ps
        acc).2.length = acc.length + cfgs.length := by
  intro cfgs
  induction cfgs with
  | nil =>
    intro ps acc h
    simp only [processConfigs]
    exact ⟨h, sameExceptLogs_refl _, by simp⟩
  | cons cfg cfgs ih =>
    intro ps acc h
    simp only [processConfigs]
    obtain ⟨d1, d2, d3⟩ := dispatchConfig_spec score a cfg (env cfg)
      (times cfg) (tEnd cfg) maxRetries ps h
    cases hd : (dispatchConfig score a cfg (env cfg) (times cfg) (tEnd cfg)
        maxRetries ps).2 with
    | none => rw [hd] at d3; exact absurd d3 (by simp)
    | some r =>
      simp only [hd]
      refine ⟨(ih _ _ (by exact d1)).1,
        sameExceptLogs_trans d2 (ih _ _ (by exact d1)).2.1, ?_⟩
      rw [(ih _ _ (by exact d1)).2.2]
      simp only [List.length_append, List.length_cons, List.length_nil,
        List.length_singleton]
      omega

theorem request_browser_summarization_spec
    (score : String → String → RougeScores) (a : Article)
    (env : String → Nat → Option BrowserReply)
    (times : String → Nat → Nat) (tEnd : String → Nat) (maxRetries : Nat)
    (ps : ProtoState) (h : TableInv ps.table) :
    TableInv (request_browser_summarization score a env times tEnd
      maxRetries ps).1.table ∧
    SameExceptLogs ps.st (request_browser_summarization score a env times
      tEnd maxRetries ps).1.st ∧
    (request_browser_summarization score a env times tEnd maxRetries
      ps).2.length = (if ps.st.mode = "single" then 1 else 24) := by
  unfold request_browser_summarization
  by_cases hm : ps.st.mode = "single"
  · simp only [hm, eq_self_iff_true, if_true]
    obtain ⟨p1, p2, p3⟩ := processConfigs_spec score a env times tEnd
      maxRetries [ps.st.selConfig] ps [] h
    refine ⟨p1, p2, ?_⟩
    rw [List.length_take, p3]
    simp
  · simp only [hm, if_false]
    obtain ⟨p1, p2, p3⟩ := processConfigs_spec score a env times tEnd
      maxRetries sweepConfigurations ps [] h
    refine ⟨p1, p2, ?_⟩
    rw [p3]
    rfl

theorem runLoop_none_spec (score : String → String → RougeScores)
    (env : Nat → String → Nat → Option BrowserReply)
    (times : Nat → String → Nat → Nat) (tEnd : Nat → String → Nat)
    (maxRetries total : Nat) :
    ∀ (articles : List Article) (i : Nat) (ps : ProtoState),
      TableInv ps.table → ps.st.is_running = true →
      TableInv (runLoop score env times tEnd maxRetries total none i
        articles ps).table ∧
      (runLoop score env times tEnd maxRetries total none i articles
        ps).st.is_running = true ∧
      (runLoop score env times tEnd maxRetries total none i articles
        ps).st.evaluation_mode = ps.st.evaluation_mode ∧
      (runLoop score env times tEnd maxRetries total none i articles
        ps).st.selected_config = ps.st.selected_config ∧
      (runLoop score env times tEnd maxRetries total none i articles
        ps).st.total_articles = ps.st.total_articles ∧
      (runLoop score env times tEnd maxRetries total none i articles
        ps).st.results.length = ps.st.results.length +
          articles.length * (if ps.st.mode = "single" then 1 else 24) ∧
      (runLoop score env times tEnd maxRetries total none i articles
        ps).st.current_article =
        (if articles.isEmpty then ps.st.current_article
          else i + articles.length) := by
  intro articles
  induction articles with
  | nil =>
    intro i ps h hr
    simp only [runLoop]
    refine ⟨h, hr, ?_, ?_, ?_, ?_, ?_⟩ <;> simp
  | cons a rest ih =>
    intro i ps h hr
    simp only [runLoop]
    rw [if_pos hr]
    set OUT := request_browser_summarization score a (env a.id) (times a.id)
      (tEnd a.id) maxRetries
      ⟨logAppend { ps.st with current_article := i + 1 }
        ("Processing article " ++ Nat.repr (i + 1) ++ "/"
          ++ Nat.repr total), ps.table, ps.emitted⟩ with hOUT
    obtain ⟨r1, ⟨s1, s2, s3, s4, s5, s6, s7⟩, r3⟩ :=
      request_browser_summarization_spec score a (env a.id) (times a.id)
        (tEnd a.id) maxRetries
        ⟨logAppend { ps.st with current_article := i + 1 }
          ("Processing article " ++ Nat.repr (i + 1) ++ "/"
            ++ Nat.repr total), ps.table, ps.emitted⟩ (by exact h)
    rw [← hOUT] at r1 s1 s2 s3 s4 s5 s6 s7 r3
    obtain ⟨i1, i2, i3, i4, i5, i6, i7⟩ := ih (i + 1)
      ⟨{ OUT.1.st with results := OUT.1.st.results ++ OUT.2 },
        OUT.1.table, OUT.1.emitted⟩ (by exact r1) (by exact s1.trans hr)
    have hmode5 : ({ OUT.1.st with
        results := OUT.1.st.results ++ OUT.2 } : RunState).evaluation_mode =
        ps.st.evaluation_mode := s5
    have hmode : ({ OUT.1.st with
        results := OUT.1.st.results ++ OUT.2 } : RunState).mode =
        ps.st.mode := by
      unfold RunState.mode
      rw [hmode5]
    have hc : ({ OUT.1.st with
        results := OUT.1.st.results ++ OUT.2 } : RunState).current_article =
        i + 1 := s2
    have hlen4 : OUT.1.st.results.length = ps.st.results.length :=
      congrArg List.length s4
    have hlenr : OUT.2.length = (if ps.st.mode = "single" then 1 else 24) :=
      r3
    refine ⟨i1, i2, i3.trans s5, i4.trans s6, i5.trans s3, ?_, ?_⟩
    · rw [i6, hmode]
      have hlen : ({ OUT.1.st with
          results := OUT.1.st.results ++ OUT.2 } : RunState).results.length =
          ps.st.results.length + OUT.2.length := by
        dsimp only
        rw [List.length_append, hlen4]
      rw [hlen, hlenr, List.length_cons]
      ring
    · rw [i7, hc]
      cases rest with
      | nil => simp
      | cons b rest' =>
        simp only [List.isEmpty_cons, if_false, Bool.false_eq_true,
          List.length_cons]
        omega

theorem cleanup_fields (st : RunState) (tab : Table) :
    (cleanup_completed_requests st tab).1.results = st.results ∧
    (cleanup_completed_requests st tab).1.total_articles =
      st.total_articles ∧
    (cleanup_completed_requests st tab).1.is_running = st.is_running ∧
    (cleanup_completed_requests st tab).1.current_article =
      st.current_article := by
  simp only [cleanup_completed_requests]
  split <;> simp [logAppend]

/-! ## C2 -/

/-- C2: a run that reaches natural completion (no stop request; fault-free
article processing) appends exactly one scored result per attempted
(article, configuration) pair — from a remote reply or, when every attempt
times out, from the synthesized fallback — so the final result-sequence
length is `articles × configurations-per-article` (1 in single mode, 24 in
sweep mode); `total_articles` records the article count and the run ends
with `is_running = false`.  The hypothesis asks that every completed entry
of the initial pending table carry a result, which holds for any table
produced by the reply handler (and for the empty table of a fresh
session). -/
theorem C2_natural_run_result_count
    (score : String → String → RougeScores)
    (env : Nat → String → Nat → Option BrowserReply)
    (times : Nat → String → Nat → Nat) (tEnd : Nat → String → Nat)
    (maxRetries : Nat) (articles : List Article) (st0 : RunState)
    (table0 : Table) (hInv : TableInv table0) :
    (run_evaluation score env times tEnd maxRetries articles none st0
        table0).st.results.length =
      articles.length * (if st0.mode = "single" then 1 else 24) ∧
    (run_evaluation score env times tEnd maxRetries articles none st0
        table0).st.total_articles = articles.length ∧
    (run_evaluation score env times tEnd maxRetries articles none st0
        table0).st.is_running = false := by
  obtain ⟨l1, l2, l3, l4, l5, l6, l7⟩ := runLoop_none_spec score env times
    tEnd maxRetries articles.length articles 0
    ⟨runStartState st0 articles.length, table0, []⟩ (by exact hInv)
    (by exact rfl)
  simp only [run_evaluation, logAppend]
  refine ⟨?_, ?_, ?_⟩
  · rw [(cleanup_fields _ _).1]
    dsimp only
    rw [l6]
    have hz : (runStartState st0 articles.length).results.length = 0 := rfl
    rw [hz]
    norm_num
    have hm : (runStartState st0 articles.length).mode = st0.mode := rfl
    rw [hm]
  · rw [(cleanup_fields _ _).2.1]
    dsimp only
    rw [l5]
    rfl
  · rw [(cleanup_fields _ _).2.2.1]

/-- Concrete instance of C2: a single-mode run over one article, remote
worker never replying, retry budget 0, fresh session table. -/
theorem C2_natural_run_result_count_witness :
    (run_evaluation zeroScore (fun _ _ _ => none) (fun _ _ _ => 0)
        (fun _ _ => 0) 0 [sampleArticle] none {} []).st.results.length =
      [sampleArticle].length * (if ({} : RunState).mode = "single"
        then 1 else 24) ∧
    (run_evaluation zeroScore (fun _ _ _ => none) (fun _ _ _ => 0)
        (fun _ _ => 0) 0 [sampleArticle] none {} []).st.total_articles =
      [sampleArticle].length ∧
    (run_evaluation zeroScore (fun _ _ _ => none) (fun _ _ _ => 0)
        (fun _ _ => 0) 0 [sampleArticle] none {} []).st.is_running =
      false :=
  C2_natural_run_result_count zeroScore (fun _ _ _ => none)
    (fun _ _ _ => 0) (fun _ _ => 0) 0 [sampleArticle] {} []
    (by intro e he; exact absurd he (List.not_mem_nil e))

theorem runLoop_stop_eq_take (score : String → String → RougeScores)
    (env : Nat → String → Nat → Option BrowserReply)
    (times : Nat → String → Nat → Nat) (tEnd : Nat → String → Nat)
    (maxRetries total k : Nat) :
    ∀ (articles : List Article) (i : Nat) (ps : ProtoState),
      (runLoop score env times tEnd maxRetries total (some k) i articles
        ps).st.results =
        (runLoop score env times tEnd maxRetries total none i
          (articles.take (k - i)) ps).st.results ∧
      (runLoop score env times tEnd maxRetries total (some k) i articles
        ps).st.current_article =
        (runLoop score env times tEnd maxRetries total none i
          (articles.take (k - i)) ps).st.current_article := by
  intro articles
  induction articles with
  | nil =>
    intro i ps
    simp [runLoop, List.take_nil]
  | cons a rest ih =>
    intro i ps
    by_cases hk : k ≤ i
    · have htake : k - i = 0 := by omega
      rw [htake, List.take_zero]
      simp only [runLoop]
      rw [if_pos hk]
      have hstop : ({ ps with st := stop_evaluation ps.st } :
          ProtoState).st.is_running = false := rfl
      rw [if_neg (by rw [hstop]; simp)]
      exact ⟨rfl, rfl⟩
    · have htake : k - i = (k - (i + 1)) + 1 := by omega
      rw [htake, List.take_succ_cons]
      simp only [runLoop]
      rw [if_neg hk]
      by_cases hr : ps.st.is_running = true
      · rw [if_pos hr, if_pos hr]
        exact ih (i + 1) _
      · rw [if_neg hr, if_neg hr]
        exact ⟨rfl, rfl⟩

/-! ## C5 -/

/-- C5: once a stop request has flipped `is_running` to false, the main
loop never begins processing another article: the flag is re-checked at
the top of every article iteration, so a run stopped before the check of
the `k`-th article produces exactly the results of the natural loop over
the first `k` articles (already-appended results are retained, none are
appended for later articles), and `current_article` ends at
`min k (number of articles)`. -/
theorem C5_stop_halts_article_processing
    (score : String → String → RougeScores)
    (env : Nat → String → Nat → Option BrowserReply)
    (times : Nat → String → Nat → Nat) (tEnd : Nat → String → Nat)
    (maxRetries : Nat) (articles : List Article) (st0 : RunState)
    (table0 : Table) (k : Nat) (hInv : TableInv table0) :
    (run_evaluation score env times tEnd maxRetries articles (some k) st0
        table0).st.results =
      (runLoop score env times tEnd maxRetries articles.length none 0
        (articles.take k)
        ⟨runStartState st0 articles.length, table0, []⟩).st.results ∧
    (run_evaluation score env times tEnd maxRetries articles (some k) st0
        table0).st.current_article = min k articles.length := by
  obtain ⟨e1, e2⟩ := runLoop_stop_eq_take score env times tEnd maxRetries
    articles.length k articles 0
    ⟨runStartState st0 articles.length, table0, []⟩
  rw [Nat.sub_zero] at e1 e2
  obtain ⟨l1, l2, l3, l4, l5, l6, l7⟩ := runLoop_none_spec score env times
    tEnd maxRetries articles.length (articles.take k) 0
    ⟨runStartState st0 articles.length, table0, []⟩ (by exact hInv)
    (by exact rfl)
  have hcur : (runLoop score env times tEnd maxRetries articles.length none
      0 (articles.take k)
      ⟨runStartState st0 articles.length, table0, []⟩).st.current_article =
      (articles.take k).length := by
    rw [l7]
    cases htk : articles.take k with
    | nil => simp [runStartState, logAppend]
    | cons x xs => simp
  constructor
  · simp only [run_evaluation, logAppend]
    rw [(cleanup_fields _ _).1]
    dsimp only
    exact e1
  · simp only [run_evaluation, logAppend]
    rw [(cleanup_fields _ _).2.2.2]
    dsimp only
    rw [e2, hcur, List.length_take]

/-- Concrete instance of C5: stop delivered before the first article of a
one-article run — no results are appended and `current_article` stays 0. -/
theorem C5_stop_halts_article_processing_witness :
    (run_evaluation zeroScore (fun _ _ _ => none) (fun _ _ _ => 0)
        (fun _ _ => 0) 0 [sampleArticle] (some 0) {} []).st.results =
      (runLoop zeroScore (fun _ _ _ => none) (fun _ _ _ => 0)
        (fun _ _ => 0) 0 [sampleArticle].length none 0
        ([sampleArticle].take 0)
        ⟨runStartState {} [sampleArticle].length, [], []⟩).st.results ∧
    (run_evaluation zeroScore (fun _ _ _ => none) (fun _ _ _ => 0)
        (fun _ _ => 0) 0 [sampleArticle] (some 0) {}
        []).st.current_article = min 0 [sampleArticle].length :=
  C5_stop_halts_article_processing zeroScore (fun _ _ _ => none)
    (fun _ _ _ => 0) (fun _ _ => 0) 0 [sampleArticle] {} [] 0
    (by intro e he; exact absurd he (List.not_mem_nil e))
